import Mathlib

/-!
Verification of the task-decomposition workflow in
`src/code_gen_workflow.py` and the review branch in
`src/examples/with_review.py`.

The Python parser in `decompose_tasks` splits the decomposition output on
newline characters, scans for lines whose stripped form starts with
`TASK_`, and groups lines into task blocks.  We embed that loop as a fold
over the list of lines, keeping each block as the list of lines it
accumulated (the Python code joins a block with a newline when it is
flushed; we join all blocks at the end, which is the same function).
-/

namespace CodeGenWorkflow

/-- Whitespace characters stripped by Python's `str.strip()`. -/
def isSpace (c : Char) : Bool :=
  c == ' ' || c == '\t' || c == '\n' || c == '\r' || c == '\x0b' || c == '\x0c'

/-- Python `str.strip()`: remove leading and trailing whitespace. -/
def pyStrip (s : String) : String :=
  String.mk (((s.data.dropWhile isSpace).reverse.dropWhile isSpace).reverse)

/-- Embeds Python `response_text.split("\n")`: split a string at every
newline, keeping empty pieces (so `""` yields `[""]`). -/
def splitLinesAux : List Char → List Char → List String
  | [], acc => [String.mk acc.reverse]
  | c :: cs, acc =>
    if c = '\n' then String.mk acc.reverse :: splitLinesAux cs []
    else splitLinesAux cs (c :: acc)

def splitLines (s : String) : List String :=
  splitLinesAux s.data []

/-- Embeds the marker test `line.strip().startswith("TASK_")`. -/
def isMarker (l : String) : Bool :=
  "TASK_".data.isPrefixOf (pyStrip l).data

/-- Embeds the Python truthiness test `line.strip()`:
a line is blank when its stripped form is empty. -/
def isBlank (l : String) : Bool :=
  pyStrip l = ""

/-- Embeds `"\n".join(...)` / `"\n\n".join(...)`. -/
def joinWith (sep : String) : List String → String
  | [] => ""
  | [x] => x
  | x :: y :: xs => x ++ sep ++ joinWith sep (y :: xs)

/-- One iteration of the parsing loop in `decompose_tasks`
(`src/code_gen_workflow.py`, lines 152-162).  The accumulator is
(`tasks`, `current_task`): on a marker line the current block (if any) is
flushed and a new block starts with the marker line; otherwise a non-blank
line is appended to the current block when one is open, and everything
else is dropped. -/
def parseStep (acc : List (List String) × List String) (line : String) :
    List (List String) × List String :=
  if isMarker line then
    (if acc.2.isEmpty then acc.1 else acc.1 ++ [acc.2], [line])
  else if !acc.2.isEmpty && !(isBlank line) then
    (acc.1, acc.2 ++ [line])
  else
    acc

/-- The whole loop, including the final flush of `current_task`
(`src/code_gen_workflow.py`, lines 164-165), at the level of line lists. -/
def parseLines (lines : List String) : List (List String) :=
  let r := lines.foldl parseStep ([], [])
  if r.2.isEmpty then r.1 else r.1 ++ [r.2]

/-- The task parser of `decompose_tasks`: split the response text into
lines, run the loop, and join each block with newlines as the Python code
does with `"\n".join(current_task)`. -/
def parseTasks (text : String) : List String :=
  (parseLines (splitLines text)).map (joinWith "\n")

/-- Embeds the `WorkflowState` pydantic model.  `implementation_status`
is a Python dict with insertion order; we model it as an ordered
association list. -/
structure WorkflowState where
  user_request : String
  tasks : List String
  implementation_status : List (String × String)
  files_generated : List String
  review_feedback : List String
  iteration_count : Nat
  max_iterations : Nat
deriving DecidableEq, Repr

/-- Embeds the dict comprehension
`{f"task_{i + 1}": "pending" for i in range(len(tasks))}`. -/
def statusInit (n : Nat) : List (String × String) :=
  (List.range n).map (fun i => ("task_" ++ toString (i + 1), "pending"))

/-- Embeds the pure tail of `decompose_tasks`
(`src/code_gen_workflow.py`, lines 146-180), taking the subagent's
response text as input: parse the tasks, overwrite
`workflow_state.tasks` and `workflow_state.implementation_status`, and
produce the backend write of `"\n\n".join(tasks)` to
`/workflow/tasks.txt`.  Returns the task list, the updated state, and the
(path, content) pair written through the backend. -/
def decomposeTasks (responseText : String) (st : WorkflowState) :
    List String × WorkflowState × (String × String) :=
  let tasks := parseTasks responseText
  let st' := { st with
    tasks := tasks
    implementation_status := statusInit tasks.length }
  (tasks, st', ("/workflow/tasks.txt", joinWith "\n\n" tasks))

/-- A sample initial state, as built in `main`
(`src/code_gen_workflow.py`). -/
def initialState (req : String) : WorkflowState :=
  { user_request := req
    tasks := []
    implementation_status := []
    files_generated := []
    review_feedback := []
    iteration_count := 0
    max_iterations := 3 }

/-- Embeds the prompt built in `decompose_tasks` (line 140):
`f"Decompose this request into implementable subtasks: {user_request}"`. -/
def decomposePrompt (user_request : String) : String :=
  "Decompose this request into implementable subtasks: " ++ user_request

/-- Embeds the whole of `decompose_tasks` as called from `main`.  The
`orchestrator.run` subagent call is abstracted as an oracle from prompt
text to response text.  The Python function contains no check of
`user_request` (empty or otherwise) and no `raise`, so every control path
returns normally; the `Except` layer records that no error is produced. -/
def runDecomposition (oracle : String → String) (user_request : String)
    (st : WorkflowState) :
    Except String (List String × WorkflowState × (String × String)) :=
  Except.ok (decomposeTasks (oracle (decomposePrompt user_request)) st)

/-- Embeds `decompose_tasks` with the outcome of the
`deps.backend.write` call (line 173) made explicit.  The Python body
mutates `workflow_state` in place (lines 167-169) before the write, and
the write is not wrapped in any `try`/`except`, so on a write failure the
exception escapes the function (an `error` result) while the state
mutation has already happened. -/
def decomposeTasksRun (writeOk : Bool) (responseText : String)
    (st : WorkflowState) : Except String (List String) × WorkflowState :=
  let tasks := parseTasks responseText
  let st' := { st with
    tasks := tasks
    implementation_status := statusInit tasks.length }
  if writeOk then (Except.ok tasks, st')
  else (Except.error "backend write failed", st')

/-- Embeds the `CodeReview` pydantic model of
`src/examples/with_review.py`. -/
structure CodeReview where
  files_created : List String
  security_issues : List String
  performance_issues : List String
  style_issues : List String
  recommendations : List String
  overall_score : Int
  ready_for_production : Bool
deriving DecidableEq, Repr

/-- The two continuations of `main` in `src/examples/with_review.py`
after the review result is printed: run the improvement agent, or report
the code production-ready. -/
inductive ReviewNext where
  | improve
  | finish
deriving DecidableEq, Repr

/-- Embeds the branch `if not review.ready_for_production:` of
`src/examples/with_review.py` (line 88): the improvement step runs
exactly when the flag is false. -/
def reviewNext (review : CodeReview) : ReviewNext :=
  if !review.ready_for_production then ReviewNext.improve
  else ReviewNext.finish

/-- A well-formed parsed block: non-empty, headed by a marker line, and
containing no blank line. -/
def goodBlock (b : List String) : Prop :=
  ∃ l ls, b = l :: ls ∧ isMarker l = true ∧ ∀ x ∈ b, isBlank x = false

/-- C1: on the decomposition output
`"TASK_1: A\nFILE: a.py\nTASK_2: B\nFILE: b.py"` the parser produces
exactly the two tasks `"TASK_1: A\nFILE: a.py"` and
`"TASK_2: B\nFILE: b.py"`, and the `implementation_status` keys assigned
are exactly `task_1` and `task_2`, both `pending`. -/
theorem c1_two_tasks :
    parseTasks "TASK_1: A\nFILE: a.py\nTASK_2: B\nFILE: b.py" =
      ["TASK_1: A\nFILE: a.py", "TASK_2: B\nFILE: b.py"] ∧
    (decomposeTasks "TASK_1: A\nFILE: a.py\nTASK_2: B\nFILE: b.py"
        (initialState "r")).2.1.implementation_status =
      [("task_1", "pending"), ("task_2", "pending")] := by
  constructor <;> rfl

/-- C3: immediately after `decompose_tasks` runs, the
`implementation_status` mapping has exactly as many entries as tasks, its
keys are exactly `task_1` through `task_n` in positional order, and every
key maps to `pending`. -/
theorem c3_status_initialized (responseText : String) (st : WorkflowState) :
    ((decomposeTasks responseText st).2.1.implementation_status.length
        = (decomposeTasks responseText st).2.1.tasks.length) ∧
    ((decomposeTasks responseText st).2.1.implementation_status.map Prod.fst
        = (List.range (decomposeTasks responseText st).2.1.tasks.length).map
            (fun i => "task_" ++ toString (i + 1))) ∧
    (∀ kv ∈ (decomposeTasks responseText st).2.1.implementation_status,
        kv.2 = "pending") := by
  refine ⟨?_, ?_, ?_⟩
  · simp [decomposeTasks, statusInit]
  · simp only [decomposeTasks, statusInit, List.map_map]
    rfl
  · intro kv hkv
    simp only [decomposeTasks, statusInit, List.mem_map] at hkv
    obtain ⟨i, _, rfl⟩ := hkv
    rfl

/-- C4, counterexample: the empty request string is not rejected.  With a
concrete oracle response, running the decomposition entry point on the
empty request succeeds (no validation error) and mutates the workflow
state exactly as for any other request. -/
theorem c4_empty_request_not_rejected :
    runDecomposition (fun _ => "TASK_1: A\nFILE: a.py") "" (initialState "") =
      Except.ok (["TASK_1: A\nFILE: a.py"],
        { user_request := ""
          tasks := ["TASK_1: A\nFILE: a.py"]
          implementation_status := [("task_1", "pending")]
          files_generated := []
          review_feedback := []
          iteration_count := 0
          max_iterations := 3 },
        ("/workflow/tasks.txt", "TASK_1: A\nFILE: a.py")) := rfl

/-- C4, amended: `decompose_tasks` performs no validation of the request.
For the empty request string it proceeds to decompose the oracle's
response and mutate the workflow state, and never returns an error. -/
theorem c4_no_validation (oracle : String → String) (st : WorkflowState) :
    runDecomposition oracle "" st
      = Except.ok (decomposeTasks (oracle (decomposePrompt "")) st) ∧
    ∀ e, runDecomposition oracle "" st ≠ Except.error e :=
  ⟨rfl, fun _ h => Except.noConfusion h⟩

/-- C6: the backend write performed by `decompose_tasks` is always of the
concatenation of the parsed task blocks joined by `"\n\n"` (one blank
line between blocks) to the path `/workflow/tasks.txt`; on the two-task
example the manifest is the two blocks with one blank line between. -/
theorem c6_manifest_write (responseText : String) (st : WorkflowState) :
    (decomposeTasks responseText st).2.2
      = ("/workflow/tasks.txt", joinWith "\n\n" (parseTasks responseText)) ∧
    (decomposeTasks "TASK_1: A\nFILE: a.py\nTASK_2: B\nFILE: b.py" st).2.2.2
      = "TASK_1: A\nFILE: a.py\n\nTASK_2: B\nFILE: b.py" :=
  ⟨rfl, rfl⟩

/-- C7, counterexample: a failing backend write is not caught by
`decompose_tasks`; it escapes the function and aborts the decomposition
result, even though the in-memory state was already mutated. -/
theorem c7_write_failure_propagates :
    (decomposeTasksRun false "TASK_1: A" (initialState "r")).1
      = Except.error "backend write failed" ∧
    (decomposeTasksRun false "TASK_1: A" (initialState "r")).2.tasks
      = ["TASK_1: A"] :=
  ⟨rfl, rfl⟩

/-- C7, amended: the state mutation precedes the backend write, so on a
write failure `workflow_state.tasks` and `implementation_status` still
hold the parsed tasks; but the failure is not caught or reported — it
propagates out of `decompose_tasks` as an error. -/
theorem c7_state_survives_write_failure (responseText : String)
    (st : WorkflowState) :
    (decomposeTasksRun false responseText st).2.tasks
      = parseTasks responseText ∧
    (decomposeTasksRun false responseText st).2.implementation_status
      = statusInit (parseTasks responseText).length ∧
    (decomposeTasksRun false responseText st).1
      = Except.error "backend write failed" :=
  ⟨rfl, rfl, rfl⟩

/-- C8, counterexample: a second decomposition on the same state removes
the previously stored tasks and rebuilds `implementation_status` from
scratch.  After decomposing two tasks and then re-decomposing a one-task
response, the earlier task `TASK_1: alpha` is gone and the `task_2` key
has been dropped. -/
theorem c8_redecomposition_overwrites :
    ((decomposeTasks "TASK_1: gamma"
        (decomposeTasks "TASK_1: alpha\nTASK_2: beta"
          (initialState "r")).2.1).2.1.tasks
      = ["TASK_1: gamma"]) ∧
    ("TASK_1: alpha" ∉ (decomposeTasks "TASK_1: gamma"
        (decomposeTasks "TASK_1: alpha\nTASK_2: beta"
          (initialState "r")).2.1).2.1.tasks) ∧
    ((decomposeTasks "TASK_1: gamma"
        (decomposeTasks "TASK_1: alpha\nTASK_2: beta"
          (initialState "r")).2.1).2.1.implementation_status
      = [("task_1", "pending")]) := by
  refine ⟨rfl, ?_, rfl⟩
  decide

/-- C8, amended: re-decomposition replaces the stored tasks and
`implementation_status` wholesale: the new parse overwrites `tasks` and
the status mapping is rebuilt positionally from `task_1`, independently
of whatever the state held before. -/
theorem c8_decompose_replaces_state (responseText : String)
    (st st' : WorkflowState) :
    (decomposeTasks responseText st).2.1.tasks = parseTasks responseText ∧
    (decomposeTasks responseText st).2.1.implementation_status
      = statusInit (parseTasks responseText).length ∧
    (decomposeTasks responseText st).2.1.tasks
      = (decomposeTasks responseText st').2.1.tasks ∧
    (decomposeTasks responseText st).2.1.implementation_status
      = (decomposeTasks responseText st').2.1.implementation_status :=
  ⟨rfl, rfl, rfl, rfl⟩

/-- C9: the improvement iteration in `with_review.py` is taken exactly
when `ready_for_production` is false; the decision is independent of
`overall_score`, and in particular a review with score 9 but
`ready_for_production = false` still triggers the improvement step. -/
theorem c9_ready_flag_authoritative :
    (∀ r : CodeReview,
      reviewNext r = ReviewNext.improve ↔ r.ready_for_production = false) ∧
    (∀ (r : CodeReview) (n : Int),
      reviewNext { r with overall_score := n } = reviewNext r) ∧
    reviewNext
        { files_created := []
          security_issues := []
          performance_issues := []
          style_issues := []
          recommendations := []
          overall_score := 9
          ready_for_production := false }
      = ReviewNext.improve := by
  refine ⟨?_, ?_, rfl⟩
  · intro r
    cases hr : r.ready_for_production <;> simp [reviewNext, hr]
  · intro r n
    cases hr : r.ready_for_production <;> simp [reviewNext, hr]

/-- C2, counterexample: a blank line between two non-empty content lines
of the same block is not preserved.  On `"TASK_1: A\n\nB"` the parser
produces the single task `"TASK_1: A\nB"` with the blank line dropped,
not `"TASK_1: A\n\nB"`. -/
theorem c2_blank_line_dropped :
    parseTasks "TASK_1: A\n\nB" = ["TASK_1: A\nB"] ∧
    parseTasks "TASK_1: A\n\nB" ≠ ["TASK_1: A\n\nB"] :=
  ⟨rfl, by decide⟩

theorem marker_not_blank {l : String} (h : isMarker l = true) :
    isBlank l = false := by
  unfold isMarker at h
  unfold isBlank
  by_contra hb
  rw [Bool.not_eq_false, decide_eq_true_eq] at hb
  rw [hb] at h
  simp [List.isPrefixOf] at h

theorem goodBlock_singleton {l : String} (h : isMarker l = true) :
    goodBlock [l] := by
  refine ⟨l, [], rfl, h, ?_⟩
  intro x hx
  rw [List.mem_singleton] at hx
  subst hx
  exact marker_not_blank h

theorem goodBlock_append {b : List String} {l : String} (hb : goodBlock b)
    (hl : isBlank l = false) : goodBlock (b ++ [l]) := by
  obtain ⟨x, xs, rfl, hx, hall⟩ := hb
  refine ⟨x, xs ++ [l], rfl, hx, ?_⟩
  intro y hy
  rcases List.mem_append.mp hy with hy1 | hy2
  · exact hall y hy1
  · rw [List.mem_singleton] at hy2
    subst hy2
    exact hl

theorem foldl_parseStep_good (lines : List String) :
    ∀ (tasks : List (List String)) (cur : List String),
      (∀ b ∈ tasks, goodBlock b) → (cur = [] ∨ goodBlock cur) →
      (∀ b ∈ (lines.foldl parseStep (tasks, cur)).1, goodBlock b) ∧
      ((lines.foldl parseStep (tasks, cur)).2 = [] ∨
        goodBlock (lines.foldl parseStep (tasks, cur)).2) := by
  induction lines with
  | nil =>
    intro tasks cur ht hc
    exact ⟨ht, hc⟩
  | cons line rest ih =>
    intro tasks cur ht hc
    rw [List.foldl_cons]
    by_cases hm : isMarker line
    · rcases hc with hc | hc
      · subst hc
        have hstep : parseStep (tasks, []) line = (tasks, [line]) := by
          simp [parseStep, hm]
        rw [hstep]
        exact ih tasks [line] ht (Or.inr (goodBlock_singleton hm))
      · have hne : cur.isEmpty = false := by
          obtain ⟨x, xs, hcx, _, _⟩ := hc
          subst hcx
          rfl
        have hstep : parseStep (tasks, cur) line
            = (tasks ++ [cur], [line]) := by
          simp [parseStep, hm, hne]
        rw [hstep]
        refine ih (tasks ++ [cur]) [line] ?_
          (Or.inr (goodBlock_singleton hm))
        intro b hb
        rcases List.mem_append.mp hb with hb1 | hb2
        · exact ht b hb1
        · rw [List.mem_singleton] at hb2
          subst hb2
          exact hc
    · by_cases hce : cur.isEmpty
      · have hstep : parseStep (tasks, cur) line = (tasks, cur) := by
          simp [parseStep, hm, hce]
        rw [hstep]
        exact ih tasks cur ht hc
      · by_cases hbl : isBlank line
        · have hstep : parseStep (tasks, cur) line = (tasks, cur) := by
            simp [parseStep, hm, hce, hbl]
          rw [hstep]
          exact ih tasks cur ht hc
        · have hstep : parseStep (tasks, cur) line
              = (tasks, cur ++ [line]) := by
            simp [parseStep, hm, hce, hbl]
          rw [hstep]
          rcases hc with hc | hc
          · subst hc
            simp at hce
          · exact ih tasks (cur ++ [line]) ht
              (Or.inr (goodBlock_append hc
                (by rw [Bool.eq_false_iff]; exact hbl)))

theorem parseLines_good (lines : List String) :
    ∀ b ∈ parseLines lines, goodBlock b := by
  have h := foldl_parseStep_good lines [] [] (by simp) (Or.inl rfl)
  unfold parseLines
  by_cases he : (lines.foldl parseStep ([], [])).2.isEmpty
  · simp only [he, if_true]
    exact h.1
  · simp only [he, if_false]
    intro b hb
    rcases List.mem_append.mp hb with hb1 | hb2
    · exact h.1 b hb1
    · rw [List.mem_singleton] at hb2
      subst hb2
      rcases h.2 with h2 | h2
      · rw [h2] at he
        simp at he
      · exact h2

theorem foldl_parseStep_count (lines : List String) :
    ∀ (tasks : List (List String)) (cur : List String),
      (lines.foldl parseStep (tasks, cur)).1.length
          + (if (lines.foldl parseStep (tasks, cur)).2.isEmpty then 0 else 1)
        = tasks.length + (if cur.isEmpty then 0 else 1)
          + lines.countP (fun l => isMarker l) := by
  induction lines with
  | nil =>
    intro tasks cur
    simp
  | cons line rest ih =>
    intro tasks cur
    rw [List.foldl_cons, List.countP_cons]
    by_cases hm : isMarker line
    · by_cases hce : cur.isEmpty
      · have hstep : parseStep (tasks, cur) line = (tasks, [line]) := by
          simp [parseStep, hm, hce]
        rw [hstep, ih]
        simp [hce, hm]
        omega
      · have hstep : parseStep (tasks, cur) line
            = (tasks ++ [cur], [line]) := by
          simp [parseStep, hm, hce]
        rw [hstep, ih]
        simp [hce, hm]
        omega
    · by_cases hce : cur.isEmpty
      · have hstep : parseStep (tasks, cur) line = (tasks, cur) := by
          simp [parseStep, hm, hce]
        rw [hstep, ih]
        simp [hm]
      · by_cases hbl : isBlank line
        · have hstep : parseStep (tasks, cur) line = (tasks, cur) := by
            simp [parseStep, hm, hce, hbl]
          rw [hstep, ih]
          simp [hm]
        · have hstep : parseStep (tasks, cur) line
              = (tasks, cur ++ [line]) := by
            simp [parseStep, hm, hce, hbl]
          rw [hstep, ih]
          have hne : (cur ++ [line]).isEmpty = false := by
            simp
          simp [hce, hne, hm]

theorem parseLines_length (lines : List String) :
    (parseLines lines).length = lines.countP (fun l => isMarker l) := by
  have h := foldl_parseStep_count lines [] []
  unfold parseLines
  by_cases he : (lines.foldl parseStep ([], [])).2.isEmpty
  · simp only [he, if_true]
    simpa [he] using h
  · simp only [he, if_false, List.length_append, List.length_singleton]
    simpa [he] using h

theorem foldl_parseStep_dropWhile (lines : List String) :
    lines.foldl parseStep ([], []) =
      (lines.dropWhile (fun l => !(isMarker l))).foldl parseStep ([], []) := by
  induction lines with
  | nil => rfl
  | cons line rest ih =>
    by_cases hm : isMarker line
    · simp [List.dropWhile_cons, hm]
    · have hstep : parseStep ([], []) line = ([], []) := by
        simp [parseStep, hm]
      rw [List.dropWhile_cons]
      simp only [hm, Bool.not_false, if_true, List.foldl_cons, hstep]
      exact ih

theorem parseLines_dropWhile (lines : List String) :
    parseLines lines
      = parseLines (lines.dropWhile (fun l => !(isMarker l))) := by
  unfold parseLines
  rw [foldl_parseStep_dropWhile]

theorem isBlank_ne_empty {l : String} (h : isBlank l = false) : l ≠ "" := by
  intro hl
  subst hl
  simp [isBlank, pyStrip] at h

theorem joinWith_ne_empty {sep : String} {l : String} {ls : List String}
    (h : l ≠ "") : joinWith sep (l :: ls) ≠ "" := by
  cases ls with
  | nil => exact h
  | cons y ys =>
    intro hc
    have hd : (l ++ sep ++ joinWith sep (y :: ys)).data = [] :=
      congrArg String.data hc
    rw [String.data_append, String.data_append] at hd
    rcases List.append_eq_nil.mp hd with ⟨hd1, _⟩
    rcases List.append_eq_nil.mp hd1 with ⟨hd2, _⟩
    exact h (String.ext hd2)

/-- C2, amended: the parser never preserves blank lines.  Every line of
every parsed task block is non-blank: blank lines are dropped wherever
they occur, both around a block and between non-empty content lines of
the same block. -/
theorem c2_no_blank_preserved (text : String) :
    ∀ b ∈ parseLines (splitLines text), ∀ l ∈ b, isBlank l = false := by
  intro b hb l hl
  obtain ⟨x, xs, hbx, hmx, hall⟩ := parseLines_good (splitLines text) b hb
  exact hall l hl

/-- Witness for C2 amended: on the input with an interior blank line, the
single parsed block is `["TASK_1: A", "B"]` and its lines are
non-blank. -/
theorem c2_no_blank_preserved_witness :
    (["TASK_1: A", "B"] ∈ parseLines (splitLines "TASK_1: A\n\nB")) ∧
    isBlank "B" = false :=
  ⟨by decide, c2_no_blank_preserved "TASK_1: A\n\nB" ["TASK_1: A", "B"]
    (by decide) "B" (by decide)⟩

/-- C5: on a decomposition output with zero task-marker lines,
`decompose_tasks` returns the empty task list without error and leaves
`workflow_state.tasks` and `implementation_status` empty. -/
theorem c5_zero_markers (text : String) (st : WorkflowState)
    (h : (splitLines text).countP (fun l => isMarker l) = 0) :
    parseTasks text = [] ∧
    (decomposeTasks text st).1 = [] ∧
    (decomposeTasks text st).2.1.tasks = [] ∧
    (decomposeTasks text st).2.1.implementation_status = [] := by
  have hlen := parseLines_length (splitLines text)
  rw [h] at hlen
  have hnil : parseLines (splitLines text) = [] :=
    List.length_eq_zero.mp hlen
  have hp : parseTasks text = [] := by
    unfold parseTasks
    rw [hnil]
    rfl
  refine ⟨hp, hp, hp, ?_⟩
  show statusInit (parseTasks text).length = []
  rw [hp]
  rfl

/-- Witness for C5: a response with no marker line parses to zero
tasks. -/
theorem c5_zero_markers_witness :
    ((splitLines "no tasks were extracted\nnothing to do").countP
        (fun l => isMarker l) = 0) ∧
    parseTasks "no tasks were extracted\nnothing to do" = [] :=
  ⟨by decide,
    (c5_zero_markers "no tasks were extracted\nnothing to do"
      (initialState "r") (by decide)).1⟩

/-- C10: lines preceding the first marker line are discarded (the parse
is unchanged when they are dropped), the number of parsed tasks equals
the number of marker lines in the input, every parsed block is non-empty
with a marker line first, and every parsed task string is non-empty. -/
theorem c10_parser_shape (text : String) :
    (parseLines (splitLines text)
      = parseLines ((splitLines text).dropWhile (fun l => !(isMarker l)))) ∧
    ((parseLines (splitLines text)).length
      = (splitLines text).countP (fun l => isMarker l)) ∧
    (∀ b ∈ parseLines (splitLines text),
      ∃ l ls, b = l :: ls ∧ isMarker l = true) ∧
    (∀ t ∈ parseTasks text, t ≠ "") := by
  refine ⟨parseLines_dropWhile _, parseLines_length _, ?_, ?_⟩
  · intro b hb
    obtain ⟨l, ls, hbl, hml, _⟩ := parseLines_good _ b hb
    exact ⟨l, ls, hbl, hml⟩
  · intro t ht
    unfold parseTasks at ht
    rw [List.mem_map] at ht
    obtain ⟨b, hb, rfl⟩ := ht
    obtain ⟨l, ls, rfl, hml, hall⟩ := parseLines_good _ b hb
    exact joinWith_ne_empty
      (isBlank_ne_empty (hall l (List.mem_cons_self _ _)))

end CodeGenWorkflow
